import Mathlib

/-!
Verification of the multi-platform publishing core of the
unified-personal-site backend (Go).

Go strings are modelled as lists of characters (`Str`); Go byte-level
operations (`len`, slicing, `strings.Index`, `strings.LastIndex`, ...) act
elementwise on that list.  Go slicing, which can panic, additionally gets an
`Option`-returning "checked" embedding used for the safety claim.

Sources embedded here:
  - services/post_everywhere.go : contains, PostEverywhere,
    calculateTwitterLength, buildTwitterPostText, buildTwitterPayload
  - the hashtag / link utilities : FormatHashtag, BuildBlogPostURL
  - models/blog_post.go, models/blog_tag.go : BlogPost, BlogTag
-/

set_option autoImplicit false

/-- Go strings, modelled as lists of characters. -/
abbrev Str := List Char

/-- The literal string "..." appended by the truncation logic. -/
def dots : Str := ['.', '.', '.']

/-- The part separator (a blank line, two newline characters) used by the
microblog composer when joining parts. -/
def nl2 : Str := ['\n', '\n']

/-- Whitespace recognized by Go unicode.IsSpace, restricted to the Latin-1
fast path.  This restriction cannot change any FormatHashtag output: every
character it might miss is discarded by the hashtag filter anyway. -/
def isGoSpace (c : Char) : Bool :=
  c = ' ' || c = '\t' || c = '\n' || c = (Char.ofNat 0x0B) || c = (Char.ofNat 0x0C) || c = '\r' ||
    c = (Char.ofNat 0x85) || c = (Char.ofNat 0xA0)

/-- Embedding of Go strings.TrimSpace: drop whitespace from both ends. -/
def trimSpace (s : Str) : Str :=
  (((s.dropWhile isGoSpace).reverse).dropWhile isGoSpace).reverse

/-- ASCII letter test, as written in the FormatHashtag character loop. -/
def isTagLetter (c : Char) : Bool :=
  ('a' ≤ c && c ≤ 'z') || ('A' ≤ c && c ≤ 'Z')

/-- ASCII digit test, as written in FormatHashtag. -/
def isTagDigit (c : Char) : Bool :=
  '0' ≤ c && c ≤ '9'

/-- The character loop of FormatHashtag: keep ASCII letters and digits,
keep underscore, drop space and hyphen, drop everything else. -/
def hashtagFilter : Str → Str
  | [] => []
  | c :: t =>
    if isTagLetter c || isTagDigit c then c :: hashtagFilter t
    else if c = ' ' || c = '-' || c = '_' then
      (if c = '_' then c :: hashtagFilter t else hashtagFilter t)
    else hashtagFilter t

/-- Lower-casing of one character (strings.ToLower restricted to ASCII;
FormatHashtag only ever lower-cases the ASCII-only filter output). -/
def asciiLowerChar (c : Char) : Char :=
  if 'A' ≤ c && c ≤ 'Z' then Char.ofNat (c.toNat + 32) else c

/-- Embedding of strings.ToLower on the ASCII-only filter output. -/
def asciiLower (s : Str) : Str :=
  s.map asciiLowerChar

/-- Embedding of FormatHashtag from the hashtag utilities: trim whitespace,
return empty for an empty trimmed input, filter to letters / digits /
underscore, lower-case, and reject a result starting with a digit. -/
def formatHashtag (tag : Str) : Str :=
  let tag := trimSpace tag
  if tag = [] then []
  else
    let formatted := asciiLower (hashtagFilter tag)
    match formatted with
    | [] => formatted
    | c :: _ => if isTagDigit c then [] else formatted

/-- Characters that may appear in a FormatHashtag result: lowercase ASCII
letters, digits, underscore. -/
def isHashtagResultChar (c : Char) : Bool :=
  ('a' ≤ c && c ≤ 'z') || ('0' ≤ c && c ≤ '9') || c = '_'

/-- Embedding of Go strings.TrimSuffix: drop the suffix once, if present. -/
def trimSuffix (s suffix : Str) : Str :=
  if suffix.isSuffixOf s then s.take (s.length - suffix.length) else s

/-- Embedding of BuildBlogPostURL from the link utilities. -/
def buildBlogPostURL (baseURL postID : Str) : Str :=
  if baseURL = [] ∨ postID = [] then []
  else trimSuffix baseURL ['/'] ++ ("/blog/".data) ++ postID

/-- Embedding of models.BlogPost (fields the publishing core reads; the
uuid ID is carried in its string rendering). -/
structure BlogPost where
  id : Str
  title : Str
  summary : Option Str
  content : Str
  url : Option Str

/-- Embedding of models.BlogTag (the core only reads Value). -/
structure BlogTag where
  value : Str
deriving DecidableEq

/-- Embedding of Go strings.Index: index of the first occurrence of pat,
or none where Go returns -1. -/
def goIndex : Str → Str → Option Nat
  | s@(_ :: t), pat => if pat.isPrefixOf s then some 0 else (goIndex t pat).map (· + 1)
  | [], pat => if pat.isPrefixOf ([] : Str) then some 0 else none

/-- Embedding of Go strings.LastIndex for a one-character pattern: index of
the last occurrence of c, or none where Go returns -1. -/
def lastIndexOfChar : Str → Char → Option Nat
  | [], _ => none
  | a :: t, c =>
    match lastIndexOfChar t c with
    | some i => some (i + 1)
    | none => if a = c then some 0 else none

/-- Whitespace that terminates a URL span in calculateTwitterLength. -/
def isTwitterWs (c : Char) : Bool :=
  c = ' ' || c = '\n' || c = '\t'

/-- Offset of the first URL-terminating whitespace character, or the length
of the list when there is none. -/
def wsOffset : Str → Nat
  | [] => 0
  | c :: t => if isTwitterWs c then 0 else wsOffset t + 1

/-- The inner scan of calculateTwitterLength: position of the first
whitespace at or after idx, or len(text) when there is none. -/
def findUrlEnd (text : Str) (idx : Nat) : Nat :=
  idx + wsOffset (text.drop idx)

/-- The pattern "http://" from calculateTwitterLength. -/
def httpPattern : Str := "http://".data

/-- The pattern "https://" from calculateTwitterLength. -/
def httpsPattern : Str := "https://".data

/-- The inner while-loop of calculateTwitterLength for one pattern.  Each
iteration strictly advances idx, so text.length + 1 units of fuel are more
iterations than the Go loop can make; the fuel is never exhausted. -/
def calcLoop (text pat : Str) : Nat → Nat → Int → Int
  | 0, _, base => base
  | fuel + 1, idx, base =>
    let urlEnd := findUrlEnd text idx
    let actualURLLength : Int := (urlEnd : Int) - (idx : Int)
    let base' := if actualURLLength > 23 then base - actualURLLength + 23 else base
    match goIndex (text.drop urlEnd) pat with
    | none => base'
    | some j => calcLoop text pat fuel (urlEnd + j) base'

/-- One iteration of the outer for-loop of calculateTwitterLength (one
pattern, threading the adjusted length). -/
def calcForPattern (text pat : Str) (base : Int) : Int :=
  match goIndex text pat with
  | none => base
  | some idx => calcLoop text pat (text.length + 1) idx base

/-- Embedding of calculateTwitterLength: literal length, with every URL
span longer than 23 characters charged as 23. -/
def calculateTwitterLength (text : Str) : Int :=
  calcForPattern text httpsPattern (calcForPattern text httpPattern (text.length : Int))

/-- The sentence-boundary truncation inlined twice in the first pass of
buildTwitterPostText (the 150-character summary and content sites): take the
maxLen prefix and, when the last period of that prefix sits strictly past
maxLen / 2, cut right after it; append an ellipsis either way. -/
def truncateForTwitter (s : Str) (maxLen : Nat) : Str :=
  if s.length > maxLen then
    let truncated := s.take maxLen
    match lastIndexOfChar truncated '.' with
    | some p => if p > maxLen / 2 then truncated.take (p + 1) ++ dots else truncated ++ dots
    | none => truncated ++ dots
  else s

/-- The hashtag collection loop of buildTwitterPostText: first maxHashtags
tags, formatted, blank results skipped, '#' prepended. -/
def collectHashtags (tags : List BlogTag) (maxHashtags : Nat) : List Str :=
  (tags.take maxHashtags).filterMap fun tag =>
    let hashtag := formatHashtag tag.value
    if hashtag = [] then none else some ('#' :: hashtag)

/-- The summary-or-content step of the first pass: append the truncated
summary (preferred) or content, when non-empty. -/
def bodyStep (p : BlogPost) (parts : List Str) : List Str :=
  match p.summary with
  | some s =>
    if s ≠ [] then parts ++ [truncateForTwitter s 150]
    else if p.content ≠ [] then parts ++ [truncateForTwitter p.content 150] else parts
  | none =>
    if p.content ≠ [] then parts ++ [truncateForTwitter p.content 150] else parts

/-- The candidate parts assembled by the first pass of buildTwitterPostText
(title, summary-or-content, URL, hashtag line), in source order. -/
def firstPassParts (p : BlogPost) (tags : List BlogTag) (baseURL : Str) : List Str :=
  let parts : List Str := []
  let parts := if p.title ≠ [] then parts ++ [p.title] else parts
  let parts := bodyStep p parts
  let parts :=
    match p.url with
    | some u =>
      if u ≠ [] then parts ++ [u]
      else if baseURL ≠ [] then parts ++ [buildBlogPostURL baseURL p.id] else parts
    | none =>
      if baseURL ≠ [] then parts ++ [buildBlogPostURL baseURL p.id] else parts
  let parts :=
    if tags ≠ [] then
      let hashtags := collectHashtags tags 4
      if hashtags ≠ [] then parts ++ [List.intercalate [' '] hashtags] else parts
    else parts
  parts

/-- The title block rebuilt by the aggressive second pass. -/
def fallbackTitle (p : BlogPost) : Str :=
  if p.title ≠ [] then p.title ++ nl2 else []

/-- The URL block rebuilt by the aggressive second pass. -/
def fallbackUrl (p : BlogPost) (baseURL : Str) : Str :=
  match p.url with
  | some u =>
    if u ≠ [] then nl2 ++ u
    else if baseURL ≠ [] then nl2 ++ buildBlogPostURL baseURL p.id else []
  | none =>
    if baseURL ≠ [] then nl2 ++ buildBlogPostURL baseURL p.id else []

/-- The hashtag block rebuilt by the aggressive second pass (three tags). -/
def fallbackHashtags (tags : List BlogTag) : Str :=
  if tags ≠ [] then
    let hashtagList := collectHashtags tags 3
    if hashtagList ≠ [] then nl2 ++ List.intercalate [' '] hashtagList else []
  else []

/-- The raw summary-or-content the second pass starts from. -/
def rawContent (p : BlogPost) : Str :=
  match p.summary with
  | some s => if s ≠ [] then s else (if p.content ≠ [] then p.content else [])
  | none => if p.content ≠ [] then p.content else []

/-- The sentence-boundary truncation of the second pass: the prefix taken is
availableSpace - 3 characters (3 reserved for the ellipsis), the midpoint
test still uses availableSpace / 2. -/
def fallbackTruncate (content : Str) (availableSpace : Int) : Str :=
  if (content.length : Int) > availableSpace then
    let truncated := content.take (availableSpace - 3).toNat
    match lastIndexOfChar truncated '.' with
    | some p =>
      if (p : Int) > availableSpace / 2 then truncated.take (p + 1) ++ dots
      else truncated ++ dots
    | none => truncated ++ dots
  else content

/-- The final-safety-check stage of the aggressive second pass of
buildTwitterPostText: reassemble title, (truncated) body, URL block and
hashtag block; if the effective length still exceeds 280, shrink the body
by the exact excess (plus the 3 ellipsis characters), or hard-truncate the
whole text as a last resort. -/
def twitterSecondCut (title content url hashtags : Str) (urlLength : Int) : Str :=
  let postText1 := title ++ content ++ url ++ hashtags
  let effectiveLength1 := calculateTwitterLength postText1
  if effectiveLength1 > 280 then
    let excess := effectiveLength1 - 280
    if (content.length : Int) > excess + 3 then
      let content2 := content.take ((content.length : Int) - excess - 3).toNat ++ dots
      title ++ content2 ++ url ++ hashtags
    else
      let maxActualLength : Int := 280 - urlLength + (url.length : Int) - 3
      if maxActualLength > 0 ∧ (postText1.length : Int) > maxActualLength then
        postText1.take maxActualLength.toNat ++ dots
      else postText1
  else postText1

/-- The aggressive second pass of buildTwitterPostText: rebuild the title,
URL and hashtag blocks, compute the available body budget (URL charged as
23, floored at 50), truncate the raw body to it, and run the final safety
check. -/
def twitterFallback (p : BlogPost) (tags : List BlogTag) (baseURL : Str) : Str :=
  let title := fallbackTitle p
  let url := fallbackUrl p baseURL
  let hashtags := fallbackHashtags tags
  let urlLength : Int := if url = [] then 0 else 23
  let availableSpace0 : Int := 280 - (title.length : Int) - urlLength - (hashtags.length : Int)
  let availableSpace := if availableSpace0 < 50 then 50 else availableSpace0
  let content := fallbackTruncate (rawContent p) availableSpace
  twitterSecondCut title content url hashtags urlLength

/-- Embedding of buildTwitterPostText: join the candidate parts; if the
effective length exceeds 280, rebuild aggressively through the second
pass. -/
def buildTwitterPostText (p : BlogPost) (tags : List BlogTag) (baseURL : Str) : Str :=
  let postText := List.intercalate nl2 (firstPassParts p tags baseURL)
  let effectiveLength := calculateTwitterLength postText
  if effectiveLength > 280 then twitterFallback p tags baseURL
  else postText

/-- Embedding of Go strings.EqualFold as used on the ASCII platform names
(simple case folding restricted to ASCII). -/
def eqFold (s t : Str) : Bool :=
  asciiLower s == asciiLower t

/-- Embedding of the contains helper of post_everywhere.go: case-insensitive
membership of item in slice. -/
def contains (slice : List Str) (item : Str) : Bool :=
  slice.any fun s => eqFold s item

/-- Abstraction of the four platform publishers for one fan-out call: none
models a call of the publisher that returned nil, some e a call that
returned the error rendered as e. -/
structure PublisherOutcomes where
  substack : Option Str
  medium : Option Str
  twitter : Option Str
  linkedin : Option Str
deriving DecidableEq

/-- The mutable locals of PostEverywhere (errors, successes), plus an
invocation trace instrumenting which publishers were actually called (the
test double of the spec). -/
structure FanoutState where
  errors : List Str
  successes : List Str
  invoked : List Str
deriving DecidableEq

/-- The Substack block of PostEverywhere: selection check, then the
fail-fast main-image guard, then the publisher call. -/
def substackStep (pub : PublisherOutcomes) (mainImageURL : Str)
    (platformsToPost : List Str) (st : FanoutState) : FanoutState :=
  if contains platformsToPost ("substack".data) then
    if mainImageURL ≠ [] then
      match pub.substack with
      | some e =>
        { st with errors := st.errors ++ [("Substack: ".data) ++ e],
                  invoked := st.invoked ++ [("Substack".data)] }
      | none =>
        { st with successes := st.successes ++ [("Substack".data)],
                  invoked := st.invoked ++ [("Substack".data)] }
    else
      { st with errors :=
          st.errors ++ [("Substack: mainImageURL is required but not provided".data)] }
  else st

/-- One of the Medium / Twitter / LinkedIn blocks of PostEverywhere (they
are textually identical up to the platform name and publisher). -/
def platformStep (selected : Bool) (name : Str) (outcome : Option Str)
    (st : FanoutState) : FanoutState :=
  if selected then
    match outcome with
    | some e =>
      { st with errors := st.errors ++ [name ++ (": ".data) ++ e],
                invoked := st.invoked ++ [name] }
    | none =>
      { st with successes := st.successes ++ [name], invoked := st.invoked ++ [name] }
  else st

/-- Embedding of PostEverywhere (selection-based variant): sequential
Substack, Medium, Twitter, LinkedIn blocks, then the aggregated error. -/
def postEverywhereTrace (pub : PublisherOutcomes) (mainImageURL : Str)
    (platformsToPost : List Str) : FanoutState × Option Str :=
  let st : FanoutState := ⟨[], [], []⟩
  let st := substackStep pub mainImageURL platformsToPost st
  let st := platformStep (contains platformsToPost ("medium".data)) ("Medium".data)
    pub.medium st
  let st := platformStep (contains platformsToPost ("twitter".data)) ("Twitter".data)
    pub.twitter st
  let st := platformStep (contains platformsToPost ("linkedin".data)) ("LinkedIn".data)
    pub.linkedin st
  let result : Option Str :=
    if st.errors ≠ [] then
      some (("some platforms failed: ".data) ++ List.intercalate ("; ".data) st.errors)
    else none
  (st, result)

/-- Error entries contributed by the Substack block. -/
def substackErrors (pub : PublisherOutcomes) (mainImageURL : Str)
    (platformsToPost : List Str) : List Str :=
  if contains platformsToPost ("substack".data) then
    if mainImageURL ≠ [] then
      match pub.substack with
      | some e => [("Substack: ".data) ++ e]
      | none => []
    else [("Substack: mainImageURL is required but not provided".data)]
  else []

/-- Success entries contributed by the Substack block. -/
def substackSuccesses (pub : PublisherOutcomes) (mainImageURL : Str)
    (platformsToPost : List Str) : List Str :=
  if contains platformsToPost ("substack".data) then
    if mainImageURL ≠ [] then
      match pub.substack with
      | some _ => []
      | none => [("Substack".data)]
    else []
  else []

/-- Publisher invocations performed by the Substack block. -/
def substackInvoked (mainImageURL : Str) (platformsToPost : List Str) : List Str :=
  if contains platformsToPost ("substack".data) then
    if mainImageURL ≠ [] then [("Substack".data)] else []
  else []

/-- Error entries contributed by one plain platform block. -/
def platformErrors (selected : Bool) (name : Str) (outcome : Option Str) : List Str :=
  if selected then
    match outcome with
    | some e => [name ++ (": ".data) ++ e]
    | none => []
  else []

/-- Success entries contributed by one plain platform block. -/
def platformSuccesses (selected : Bool) (name : Str) (outcome : Option Str) : List Str :=
  if selected then
    match outcome with
    | some _ => []
    | none => [name]
  else []

/-- Publisher invocations performed by one plain platform block. -/
def platformInvoked (selected : Bool) (name : Str) : List Str :=
  if selected then [name] else []

/-- The full error list of one fan-out call, platform by platform. -/
def fanoutErrors (pub : PublisherOutcomes) (mainImageURL : Str)
    (platformsToPost : List Str) : List Str :=
  substackErrors pub mainImageURL platformsToPost ++
    platformErrors (contains platformsToPost ("medium".data)) ("Medium".data) pub.medium ++
    platformErrors (contains platformsToPost ("twitter".data)) ("Twitter".data) pub.twitter ++
    platformErrors (contains platformsToPost ("linkedin".data)) ("LinkedIn".data) pub.linkedin

/-- The full success list of one fan-out call. -/
def fanoutSuccesses (pub : PublisherOutcomes) (mainImageURL : Str)
    (platformsToPost : List Str) : List Str :=
  substackSuccesses pub mainImageURL platformsToPost ++
    platformSuccesses (contains platformsToPost ("medium".data)) ("Medium".data) pub.medium ++
    platformSuccesses (contains platformsToPost ("twitter".data)) ("Twitter".data) pub.twitter ++
    platformSuccesses (contains platformsToPost ("linkedin".data)) ("LinkedIn".data) pub.linkedin

/-- The ordered publisher invocation list of one fan-out call: Substack
(needing selection and a main image), then Medium, Twitter, LinkedIn as
selected. -/
def fanoutInvoked (mainImageURL : Str) (platformsToPost : List Str) : List Str :=
  substackInvoked mainImageURL platformsToPost ++
    platformInvoked (contains platformsToPost ("medium".data)) ("Medium".data) ++
    platformInvoked (contains platformsToPost ("twitter".data)) ("Twitter".data) ++
    platformInvoked (contains platformsToPost ("linkedin".data)) ("LinkedIn".data)

/-- The sentence-boundary rule exactly as the specification words it
("if a period exists in the prefix at or after its midpoint, cut after
that period"): the claimed cut also fires when the last period sits
exactly at the midpoint. -/
def sentenceTruncClaim (s : Str) (maxLen : Nat) : Str :=
  if s.length ≤ maxLen then s
  else
    let pre := s.take maxLen
    match lastIndexOfChar pre '.' with
    | some p => if p ≥ maxLen / 2 then pre.take (p + 1) ++ dots else pre ++ dots
    | none => pre ++ dots

/-- The sentence-boundary rule as amended: the cut fires only when the
last period of the prefix sits strictly past the midpoint. -/
def sentenceTruncAmended (s : Str) (maxLen : Nat) : Str :=
  if s.length ≤ maxLen then s
  else
    let pre := s.take maxLen
    match lastIndexOfChar pre '.' with
    | some p => if p > maxLen / 2 then pre.take (p + 1) ++ dots else pre ++ dots
    | none => pre ++ dots

/-- The summary-or-content part of the candidate, per the specification:
summary preferred when present and non-empty, else content, under the
150-character budget (empty when both are missing). -/
def specBody (p : BlogPost) : Str :=
  match p.summary with
  | some s => if s ≠ [] then truncateForTwitter s 150 else truncateForTwitter p.content 150
  | none => truncateForTwitter p.content 150

/-- The URL part of the candidate, per the specification: the post's own
URL when present and non-empty, else the constructed permalink when a base
URL is configured, else empty. -/
def specUrlPart (p : BlogPost) (baseURL : Str) : Str :=
  match p.url with
  | some u =>
    if u ≠ [] then u
    else if baseURL ≠ [] then buildBlogPostURL baseURL p.id else []
  | none => if baseURL ≠ [] then buildBlogPostURL baseURL p.id else []

/-- The hashtag part of the candidate, per the specification: up to four
hashtags, blank-formatted tags skipped, joined by spaces. -/
def specHashtagPart (tags : List BlogTag) : Str :=
  List.intercalate [' '] (collectHashtags tags 4)

/-- The four candidate parts of the specification, in order. -/
def specMicroblogParts (p : BlogPost) (tags : List BlogTag) (baseURL : Str) : List Str :=
  [p.title, specBody p, specUrlPart p baseURL, specHashtagPart tags]

/-- The specification's straightforward join: non-empty candidate parts
joined by a blank line. -/
def specMicroblogCandidate (p : BlogPost) (tags : List BlogTag) (baseURL : Str) : Str :=
  List.intercalate nl2 ((specMicroblogParts p tags baseURL).filter fun part => !part.isEmpty)

/-- Checked embedding of Go slicing s[:k]: none models the out-of-range
panic (k negative or beyond len(s)). -/
def goTake (s : Str) (k : Int) : Option Str :=
  if 0 ≤ k ∧ k ≤ (s.length : Int) then some (s.take k.toNat) else none

/-- Checked embedding of Go slicing s[k:]: none models the out-of-range
panic (k beyond len(s)). -/
def goDrop (s : Str) (k : Nat) : Option Str :=
  if k ≤ s.length then some (s.drop k) else none

/-- Checked first-pass truncation: every slice is bounds-checked. -/
def truncateForTwitterChecked (s : Str) (maxLen : Nat) : Option Str :=
  if s.length > maxLen then
    match goTake s (maxLen : Int) with
    | none => none
    | some truncated =>
      match lastIndexOfChar truncated '.' with
      | some p =>
        if p > maxLen / 2 then
          match goTake truncated ((p : Int) + 1) with
          | none => none
          | some cut => some (cut ++ dots)
        else some (truncated ++ dots)
      | none => some (truncated ++ dots)
  else some s

/-- Checked second-pass truncation: every slice is bounds-checked. -/
def fallbackTruncateChecked (content : Str) (availableSpace : Int) : Option Str :=
  if (content.length : Int) > availableSpace then
    match goTake content (availableSpace - 3) with
    | none => none
    | some truncated =>
      match lastIndexOfChar truncated '.' with
      | some p =>
        if (p : Int) > availableSpace / 2 then
          match goTake truncated ((p : Int) + 1) with
          | none => none
          | some cut => some (cut ++ dots)
        else some (truncated ++ dots)
      | none => some (truncated ++ dots)
  else some content

/-- Checked inner loop of calculateTwitterLength: the suffix slice
text[urlEnd:] is bounds-checked. -/
def calcLoopChecked (text pat : Str) : Nat → Nat → Int → Option Int
  | 0, _, base => some base
  | fuel + 1, idx, base =>
    let urlEnd := findUrlEnd text idx
    let actualURLLength : Int := (urlEnd : Int) - (idx : Int)
    let base' := if actualURLLength > 23 then base - actualURLLength + 23 else base
    match goDrop text urlEnd with
    | none => none
    | some rest =>
      match goIndex rest pat with
      | none => some base'
      | some j => calcLoopChecked text pat fuel (urlEnd + j) base'

/-- Checked per-pattern pass of calculateTwitterLength. -/
def calcForPatternChecked (text pat : Str) (base : Int) : Option Int :=
  match goIndex text pat with
  | none => some base
  | some idx => calcLoopChecked text pat (text.length + 1) idx base

/-- Checked effective-length helper. -/
def calculateTwitterLengthChecked (text : Str) : Option Int :=
  match calcForPatternChecked text httpPattern ((text.length : Int)) with
  | none => none
  | some b1 => calcForPatternChecked text httpsPattern b1

/-- Checked summary-or-content step of the first pass. -/
def bodyStepChecked (p : BlogPost) (parts : List Str) : Option (List Str) :=
  match p.summary with
  | some s =>
    if s ≠ [] then (truncateForTwitterChecked s 150).map fun t => parts ++ [t]
    else if p.content ≠ [] then
      (truncateForTwitterChecked p.content 150).map fun t => parts ++ [t]
    else some parts
  | none =>
    if p.content ≠ [] then (truncateForTwitterChecked p.content 150).map fun t => parts ++ [t]
    else some parts

/-- Checked first-pass part assembly of buildTwitterPostText. -/
def firstPassPartsChecked (p : BlogPost) (tags : List BlogTag) (baseURL : Str) :
    Option (List Str) := do
  let parts : List Str := []
  let parts := if p.title ≠ [] then parts ++ [p.title] else parts
  let parts ← bodyStepChecked p parts
  let parts :=
    match p.url with
    | some u =>
      if u ≠ [] then parts ++ [u]
      else if baseURL ≠ [] then parts ++ [buildBlogPostURL baseURL p.id] else parts
    | none =>
      if baseURL ≠ [] then parts ++ [buildBlogPostURL baseURL p.id] else parts
  let parts :=
    if tags ≠ [] then
      let hashtags := collectHashtags tags 4
      if hashtags ≠ [] then parts ++ [List.intercalate [' '] hashtags] else parts
    else parts
  pure parts

/-- Checked final-safety-check stage. -/
def twitterSecondCutChecked (title content url hashtags : Str) (urlLength : Int) :
    Option Str := do
  let postText1 := title ++ content ++ url ++ hashtags
  let effectiveLength1 ← calculateTwitterLengthChecked postText1
  if effectiveLength1 > 280 then
    let excess := effectiveLength1 - 280
    if (content.length : Int) > excess + 3 then do
      let cut ← goTake content ((content.length : Int) - excess - 3)
      pure (title ++ (cut ++ dots) ++ url ++ hashtags)
    else
      let maxActualLength : Int := 280 - urlLength + (url.length : Int) - 3
      if maxActualLength > 0 ∧ (postText1.length : Int) > maxActualLength then do
        let cut ← goTake postText1 maxActualLength
        pure (cut ++ dots)
      else pure postText1
  else pure postText1

/-- Checked aggressive second pass. -/
def twitterFallbackChecked (p : BlogPost) (tags : List BlogTag) (baseURL : Str) :
    Option Str := do
  let title := fallbackTitle p
  let url := fallbackUrl p baseURL
  let hashtags := fallbackHashtags tags
  let urlLength : Int := if url = [] then 0 else 23
  let availableSpace0 : Int := 280 - (title.length : Int) - urlLength - (hashtags.length : Int)
  let availableSpace := if availableSpace0 < 50 then 50 else availableSpace0
  let content ← fallbackTruncateChecked (rawContent p) availableSpace
  twitterSecondCutChecked title content url hashtags urlLength

/-- Checked microblog composer: returns none if any Go slice or suffix
operation would have panicked. -/
def buildTwitterPostTextChecked (p : BlogPost) (tags : List BlogTag) (baseURL : Str) :
    Option Str := do
  let parts ← firstPassPartsChecked p tags baseURL
  let postText := List.intercalate nl2 parts
  let effectiveLength ← calculateTwitterLengthChecked postText
  if effectiveLength > 280 then twitterFallbackChecked p tags baseURL
  else pure postText

-- ===== THEOREMS =====

theorem char_le_iff_toNat {c d : Char} : c ≤ d ↔ c.toNat ≤ d.toNat := by
  simp [Char.le_def, UInt32.le_def, BitVec.le_def, Char.toNat, UInt32.toNat]

theorem char_eq_iff_toNat {c d : Char} : c = d ↔ c.toNat = d.toNat :=
  ⟨fun h => h ▸ rfl, fun h => Char.ext (UInt32.ext h)⟩

theorem char_toNat_ofNat_shift (c : Char) (h1 : 'A' ≤ c) (h2 : c ≤ 'Z') :
    (Char.ofNat (c.toNat + 32)).toNat = c.toNat + 32 := by
  rw [char_le_iff_toNat] at h1 h2
  have hA : ('A' : Char).toNat = 65 := by decide
  have hZ : ('Z' : Char).toNat = 90 := by decide
  rw [hA] at h1; rw [hZ] at h2
  have hv : (c.toNat + 32).isValidChar := Or.inl (by omega)
  simp only [Char.ofNat, Char.toNat, UInt32.toNat] at hv ⊢
  rw [dif_pos hv]
  rfl

@[simp] theorem toNat_lit_lower_a : ('a' : Char).toNat = 97 := rfl
@[simp] theorem toNat_lit_lower_z : ('z' : Char).toNat = 122 := rfl
@[simp] theorem toNat_lit_upper_a : ('A' : Char).toNat = 65 := rfl
@[simp] theorem toNat_lit_upper_z : ('Z' : Char).toNat = 90 := rfl
@[simp] theorem toNat_lit_d0 : ('0' : Char).toNat = 48 := rfl
@[simp] theorem toNat_lit_d9 : ('9' : Char).toNat = 57 := rfl
@[simp] theorem toNat_lit_underscore : ('_' : Char).toNat = 95 := rfl
@[simp] theorem toNat_lit_space : (' ' : Char).toNat = 32 := rfl
@[simp] theorem toNat_lit_tab : ('\t' : Char).toNat = 9 := rfl
@[simp] theorem toNat_lit_newline : ('\n' : Char).toNat = 10 := rfl
@[simp] theorem toNat_lit_cr : ('\r' : Char).toNat = 13 := rfl
@[simp] theorem toNat_lit_hyphen : ('-' : Char).toNat = 45 := rfl
@[simp] theorem toNat_lit_slash : ('/' : Char).toNat = 47 := rfl
@[simp] theorem toNat_lit_hash : ('#' : Char).toNat = 35 := rfl
@[simp] theorem toNat_lit_period : ('.' : Char).toNat = 46 := rfl
@[simp] theorem toNat_lit_vt : (Char.ofNat 0x0B).toNat = 11 := rfl
@[simp] theorem toNat_lit_ff : (Char.ofNat 0x0C).toNat = 12 := rfl
@[simp] theorem toNat_lit_nel : (Char.ofNat 0x85).toNat = 133 := rfl
@[simp] theorem toNat_lit_nbsp : (Char.ofNat 0xA0).toNat = 160 := rfl

theorem isTagLetter_iff (c : Char) :
    isTagLetter c = true ↔
      (97 ≤ c.toNat ∧ c.toNat ≤ 122) ∨ (65 ≤ c.toNat ∧ c.toNat ≤ 90) := by
  simp [isTagLetter, char_le_iff_toNat]

theorem isTagDigit_iff (c : Char) :
    isTagDigit c = true ↔ 48 ≤ c.toNat ∧ c.toNat ≤ 57 := by
  simp [isTagDigit, char_le_iff_toNat]

theorem isHashtagResultChar_iff (c : Char) :
    isHashtagResultChar c = true ↔
      (97 ≤ c.toNat ∧ c.toNat ≤ 122) ∨ (48 ≤ c.toNat ∧ c.toNat ≤ 57) ∨ c.toNat = 95 := by
  simp [isHashtagResultChar, char_le_iff_toNat, char_eq_iff_toNat]
  tauto

theorem isGoSpace_iff (c : Char) :
    isGoSpace c = true ↔
      c.toNat = 32 ∨ c.toNat = 9 ∨ c.toNat = 10 ∨ c.toNat = 11 ∨ c.toNat = 12 ∨
        c.toNat = 13 ∨ c.toNat = 133 ∨ c.toNat = 160 := by
  simp [isGoSpace, char_eq_iff_toNat]
  tauto

theorem hashtagFilter_chars (s : Str) :
    ∀ c ∈ hashtagFilter s,
      isTagLetter c = true ∨ isTagDigit c = true ∨ c = '_' := by
  induction s with
  | nil => intro c hc; simp [hashtagFilter] at hc
  | cons a t ih =>
    intro c hc
    simp only [hashtagFilter] at hc
    by_cases h1 : (isTagLetter a || isTagDigit a) = true
    · rw [if_pos h1] at hc
      rcases List.mem_cons.mp hc with rfl | hc
      · have h1' : isTagLetter c = true ∨ isTagDigit c = true := by simpa using h1
        rcases h1' with h | h
        · exact Or.inl h
        · exact Or.inr (Or.inl h)
      · exact ih c hc
    · rw [if_neg h1] at hc
      by_cases h2 : (a = ' ' || a = '-' || a = '_') = true
      · rw [if_pos h2] at hc
        by_cases h3 : a = '_'
        · rw [if_pos h3] at hc
          rcases List.mem_cons.mp hc with rfl | hc
          · exact Or.inr (Or.inr h3)
          · exact ih c hc
        · rw [if_neg h3] at hc
          exact ih c hc
      · rw [if_neg h2] at hc
        exact ih c hc

theorem upperTest_iff (c : Char) :
    ('A' ≤ c && c ≤ 'Z') = true ↔ 65 ≤ c.toNat ∧ c.toNat ≤ 90 := by
  simp [char_le_iff_toNat]

theorem asciiLowerChar_toNat_upper (c : Char) (h : 65 ≤ c.toNat ∧ c.toNat ≤ 90) :
    (asciiLowerChar c).toNat = c.toNat + 32 := by
  unfold asciiLowerChar
  rw [if_pos ((upperTest_iff c).mpr h)]
  exact char_toNat_ofNat_shift c (char_le_iff_toNat.mpr (by simpa using h.1))
    (char_le_iff_toNat.mpr (by simpa using h.2))

theorem asciiLowerChar_eq_self (c : Char) (h : ¬(65 ≤ c.toNat ∧ c.toNat ≤ 90)) :
    asciiLowerChar c = c := by
  unfold asciiLowerChar
  rw [if_neg (fun hc => h ((upperTest_iff c).mp hc))]

theorem asciiLowerChar_allowed (c : Char)
    (h : isTagLetter c = true ∨ isTagDigit c = true ∨ c = '_') :
    isHashtagResultChar (asciiLowerChar c) = true := by
  rw [isHashtagResultChar_iff]
  by_cases hu : 65 ≤ c.toNat ∧ c.toNat ≤ 90
  · rw [asciiLowerChar_toNat_upper c hu]
    omega
  · rw [asciiLowerChar_eq_self c hu]
    rcases h with h | h | h
    · rw [isTagLetter_iff] at h
      omega
    · rw [isTagDigit_iff] at h
      omega
    · rw [char_eq_iff_toNat] at h
      simp at h
      omega

theorem asciiLower_hashtagFilter_chars (s : Str) :
    ∀ c ∈ asciiLower (hashtagFilter s), isHashtagResultChar c = true := by
  intro c hc
  simp only [asciiLower, List.mem_map] at hc
  obtain ⟨a, ha, rfl⟩ := hc
  exact asciiLowerChar_allowed a (hashtagFilter_chars s a ha)

theorem formatHashtag_chars (tag : Str) :
    ∀ c ∈ formatHashtag tag, isHashtagResultChar c = true := by
  intro c hc
  simp only [formatHashtag] at hc
  split at hc
  · simp at hc
  · split at hc
    · next heq =>
      rw [heq] at hc
      simp at hc
    · next c0 t0 heq =>
      split at hc
      · simp at hc
      · exact asciiLower_hashtagFilter_chars (trimSpace tag) c hc

theorem formatHashtag_head (tag : Str) (c : Char) (l : Str)
    (h : formatHashtag tag = c :: l) : isTagDigit c = false := by
  simp only [formatHashtag] at h
  split at h
  · exact absurd h (by simp)
  · split at h
    · next heq =>
      rw [heq] at h
      exact absurd h (by simp)
    · next c0 t0 heq =>
      split at h
      · exact absurd h (by simp)
      · next hd =>
        rw [heq] at h
        obtain ⟨rfl, rfl⟩ : c0 = c ∧ t0 = l := by
          exact ⟨(List.cons.injEq _ _ _ _ ▸ h).1, (List.cons.injEq _ _ _ _ ▸ h).2⟩
        exact Bool.not_eq_true _ ▸ hd

theorem dropWhile_eq_self_of_none (p : Char → Bool) (l : Str)
    (h : ∀ c ∈ l, p c = false) : l.dropWhile p = l := by
  cases l with
  | nil => rfl
  | cons a t =>
    rw [List.dropWhile_cons, if_neg (by simp [h a (List.mem_cons_self a t)])]

theorem trimSpace_eq_self (s : Str) (h : ∀ c ∈ s, isGoSpace c = false) :
    trimSpace s = s := by
  unfold trimSpace
  rw [dropWhile_eq_self_of_none _ s h]
  rw [dropWhile_eq_self_of_none _ s.reverse (fun c hc => h c (List.mem_reverse.mp hc))]
  exact List.reverse_reverse s

theorem hashtagFilter_eq_self (s : Str) (h : ∀ c ∈ s, isHashtagResultChar c = true) :
    hashtagFilter s = s := by
  induction s with
  | nil => rfl
  | cons a t ih =>
    have ha := (isHashtagResultChar_iff a).mp (h a (List.mem_cons_self a t))
    have ht : hashtagFilter t = t := ih fun c hc => h c (List.mem_cons_of_mem a hc)
    by_cases h1 : (isTagLetter a || isTagDigit a) = true
    · simp only [hashtagFilter]
      rw [if_pos h1, ht]
    · have ha95 : a.toNat = 95 := by
        rcases ha with h2 | h2 | h2
        · exact absurd h1 (by simp [isTagLetter_iff]; omega)
        · exact absurd h1 (by simp [isTagDigit_iff]; omega)
        · exact h2
      have haeq : a = '_' := char_eq_iff_toNat.mpr (by simpa using ha95)
      simp only [hashtagFilter]
      rw [if_neg h1, if_pos (by simp [haeq]), if_pos haeq, ht]

theorem asciiLower_eq_self (s : Str) (h : ∀ c ∈ s, isHashtagResultChar c = true) :
    asciiLower s = s := by
  induction s with
  | nil => rfl
  | cons a t ih =>
    have ha := (isHashtagResultChar_iff a).mp (h a (List.mem_cons_self a t))
    have ht : asciiLower t = t := ih fun c hc => h c (List.mem_cons_of_mem a hc)
    simp only [asciiLower, List.map_cons] at ht ⊢
    rw [ht, asciiLowerChar_eq_self a (by omega)]

theorem notGoSpace_of_allowed (c : Char) (h : isHashtagResultChar c = true) :
    isGoSpace c = false := by
  rw [Bool.eq_false_iff]
  intro hs
  rw [isGoSpace_iff] at hs
  rw [isHashtagResultChar_iff] at h
  omega

/-- C8: FormatHashtag only emits lowercase ASCII letters, digits and
underscore (in particular no whitespace, hyphens, or uppercase letters),
never emits a leading digit, returns empty for an input that is empty after
trimming, and returns empty when the retained lower-cased token starts with
a digit. -/
theorem c8_formatHashtag_charset (tag : Str) :
    (∀ c ∈ formatHashtag tag, isHashtagResultChar c = true) ∧
    (∀ c l, formatHashtag tag = c :: l → isTagDigit c = false) ∧
    (trimSpace tag = [] → formatHashtag tag = []) ∧
    (∀ c l, asciiLower (hashtagFilter (trimSpace tag)) = c :: l → isTagDigit c = true →
      formatHashtag tag = []) := by
  refine ⟨formatHashtag_chars tag, formatHashtag_head tag, ?_, ?_⟩
  · intro h
    simp only [formatHashtag]
    rw [if_pos h]
  · intro c l hfl hd
    simp only [formatHashtag]
    split
    · rfl
    · rw [hfl]
      simp [hd]

/-- Witness for C8 at concrete inputs: a mixed tag is cleaned to the
allowed charset, an all-whitespace tag trims to empty and maps to empty,
and a digit-leading tag maps to empty. -/
theorem c8_formatHashtag_charset_witness :
    (∀ c ∈ formatHashtag ("My-Tag 42!".data), isHashtagResultChar c = true) ∧
    formatHashtag ("  ".data) = [] ∧
    formatHashtag ("9lives".data) = [] := by
  refine ⟨(c8_formatHashtag_charset ("My-Tag 42!".data)).1, ?_, ?_⟩
  · exact (c8_formatHashtag_charset ("  ".data)).2.2.1 (by decide)
  · exact (c8_formatHashtag_charset ("9lives".data)).2.2.2 '9' ("lives".data) (by decide)
      (by decide)

/-- C9: FormatHashtag is idempotent. -/
theorem c9_formatHashtag_idempotent (tag : Str) :
    formatHashtag (formatHashtag tag) = formatHashtag tag := by
  cases hout : formatHashtag tag with
  | nil => decide
  | cons c l =>
    have hchars : ∀ d ∈ c :: l, isHashtagResultChar d = true := by
      intro d hd
      exact formatHashtag_chars tag d (hout ▸ hd)
    have hhead : isTagDigit c = false := formatHashtag_head tag c l hout
    have htrim : trimSpace (c :: l) = c :: l :=
      trimSpace_eq_self _ fun d hd => notGoSpace_of_allowed d (hchars d hd)
    have hfilter : hashtagFilter (c :: l) = c :: l := hashtagFilter_eq_self _ hchars
    have hlower : asciiLower (c :: l) = c :: l := asciiLower_eq_self _ hchars
    simp only [formatHashtag, htrim, hfilter, hlower]
    rw [if_neg (by simp)]
    rw [if_neg (by simp [hhead])]

theorem substackStep_eq (pub : PublisherOutcomes) (img : Str) (sel : List Str)
    (st : FanoutState) :
    substackStep pub img sel st =
      { errors := st.errors ++ substackErrors pub img sel,
        successes := st.successes ++ substackSuccesses pub img sel,
        invoked := st.invoked ++ substackInvoked img sel } := by
  by_cases hc : contains sel ("substack".data) = true <;>
    by_cases himg : img = [] <;>
      cases ho : pub.substack <;>
        simp [substackStep, substackErrors, substackSuccesses, substackInvoked, hc, himg, ho]

theorem platformStep_eq (b : Bool) (name : Str) (o : Option Str) (st : FanoutState) :
    platformStep b name o st =
      { errors := st.errors ++ platformErrors b name o,
        successes := st.successes ++ platformSuccesses b name o,
        invoked := st.invoked ++ platformInvoked b name } := by
  cases b <;> cases o <;>
    simp [platformStep, platformErrors, platformSuccesses, platformInvoked]

theorem postEverywhereTrace_eq (pub : PublisherOutcomes) (img : Str) (sel : List Str) :
    postEverywhereTrace pub img sel =
      ({ errors := fanoutErrors pub img sel,
         successes := fanoutSuccesses pub img sel,
         invoked := fanoutInvoked img sel },
       if fanoutErrors pub img sel ≠ [] then
         some (("some platforms failed: ".data) ++
           List.intercalate ("; ".data) (fanoutErrors pub img sel))
       else none) := by
  simp only [postEverywhereTrace, substackStep_eq, platformStep_eq]
  simp [fanoutErrors, fanoutSuccesses, fanoutInvoked, List.append_assoc]

theorem mem_substackErrors_iff (pub : PublisherOutcomes) (img : Str) (sel : List Str)
    (x : Str) :
    x ∈ substackErrors pub img sel ↔
      (contains sel ("substack".data) = true ∧ img ≠ [] ∧
        ∃ e, pub.substack = some e ∧ x = ("Substack: ".data) ++ e) ∨
      (contains sel ("substack".data) = true ∧ img = [] ∧
        x = ("Substack: mainImageURL is required but not provided".data)) := by
  by_cases hc : contains sel ("substack".data) = true <;>
    by_cases himg : img = [] <;>
      cases ho : pub.substack <;>
        simp [substackErrors, hc, himg, ho]

theorem mem_platformErrors_iff (b : Bool) (name : Str) (o : Option Str) (x : Str) :
    x ∈ platformErrors b name o ↔
      (b = true ∧ ∃ e, o = some e ∧ x = name ++ (": ".data) ++ e) := by
  cases b <;> cases o <;> simp [platformErrors]

theorem mem_fanoutErrors_iff (pub : PublisherOutcomes) (img : Str) (sel : List Str)
    (x : Str) :
    x ∈ fanoutErrors pub img sel ↔
      (contains sel ("substack".data) = true ∧ img ≠ [] ∧
        ∃ e, pub.substack = some e ∧ x = ("Substack: ".data) ++ e) ∨
      (contains sel ("substack".data) = true ∧ img = [] ∧
        x = ("Substack: mainImageURL is required but not provided".data)) ∨
      (contains sel ("medium".data) = true ∧
        ∃ e, pub.medium = some e ∧ x = ("Medium".data) ++ (": ".data) ++ e) ∨
      (contains sel ("twitter".data) = true ∧
        ∃ e, pub.twitter = some e ∧ x = ("Twitter".data) ++ (": ".data) ++ e) ∨
      (contains sel ("linkedin".data) = true ∧
        ∃ e, pub.linkedin = some e ∧ x = ("LinkedIn".data) ++ (": ".data) ++ e) := by
  simp only [fanoutErrors, List.mem_append, mem_substackErrors_iff, mem_platformErrors_iff,
    or_assoc]

theorem mediumMsg_eq (e : Str) :
    ("Medium".data) ++ (": ".data) ++ e = ("Medium: ".data) ++ e := by
  rfl

theorem twitterMsg_eq (e : Str) :
    ("Twitter".data) ++ (": ".data) ++ e = ("Twitter: ".data) ++ e := by
  rfl

theorem linkedinMsg_eq (e : Str) :
    ("LinkedIn".data) ++ (": ".data) ++ e = ("LinkedIn: ".data) ++ e := by
  rfl

theorem mem_platformInvoked_iff (b : Bool) (name x : Str) :
    x ∈ platformInvoked b name ↔ b = true ∧ x = name := by
  cases b <;> simp [platformInvoked]

theorem mem_substackInvoked_iff (img : Str) (sel : List Str) (x : Str) :
    x ∈ substackInvoked img sel ↔
      contains sel ("substack".data) = true ∧ img ≠ [] ∧ x = ("Substack".data) := by
  by_cases hc : contains sel ("substack".data) = true <;>
    by_cases himg : img = [] <;> simp [substackInvoked, hc, himg]

theorem mem_fanoutInvoked_iff (img : Str) (sel : List Str) (x : Str) :
    x ∈ fanoutInvoked img sel ↔
      (contains sel ("substack".data) = true ∧ img ≠ [] ∧ x = ("Substack".data)) ∨
      (contains sel ("medium".data) = true ∧ x = ("Medium".data)) ∨
      (contains sel ("twitter".data) = true ∧ x = ("Twitter".data)) ∨
      (contains sel ("linkedin".data) = true ∧ x = ("LinkedIn".data)) := by
  simp only [fanoutInvoked, List.mem_append, mem_substackInvoked_iff,
    mem_platformInvoked_iff, or_assoc]

/-- C3: when at least one selected platform fails, the fan-out still runs
every other selected platform's publisher, and returns one aggregated
error: the per-platform failure messages, each of the form
platform-name, colon, reason, joined by a semicolon separator; the message
of each failing selected platform is in the list, and no succeeding
selected platform contributes an entry. -/
theorem c3_fanout_failure_aggregation (pub : PublisherOutcomes) (img : Str)
    (sel : List Str) (hfail : fanoutErrors pub img sel ≠ []) :
    (postEverywhereTrace pub img sel).2 =
      some (("some platforms failed: ".data) ++
        List.intercalate ("; ".data) (fanoutErrors pub img sel)) ∧
    (postEverywhereTrace pub img sel).1.errors = fanoutErrors pub img sel ∧
    (postEverywhereTrace pub img sel).1.invoked = fanoutInvoked img sel ∧
    (∀ e, contains sel ("medium".data) = true → pub.medium = some e →
      ("Medium: ".data) ++ e ∈ fanoutErrors pub img sel) ∧
    (∀ e, contains sel ("twitter".data) = true → pub.twitter = some e →
      ("Twitter: ".data) ++ e ∈ fanoutErrors pub img sel) ∧
    (∀ e, contains sel ("linkedin".data) = true → pub.linkedin = some e →
      ("LinkedIn: ".data) ++ e ∈ fanoutErrors pub img sel) ∧
    (∀ e, contains sel ("substack".data) = true → img ≠ [] → pub.substack = some e →
      ("Substack: ".data) ++ e ∈ fanoutErrors pub img sel) ∧
    (pub.medium = none → ∀ e, ("Medium: ".data) ++ e ∉ fanoutErrors pub img sel) ∧
    (pub.twitter = none → ∀ e, ("Twitter: ".data) ++ e ∉ fanoutErrors pub img sel) ∧
    (pub.linkedin = none → ∀ e, ("LinkedIn: ".data) ++ e ∉ fanoutErrors pub img sel) ∧
    (pub.substack = none → img ≠ [] →
      ∀ e, ("Substack: ".data) ++ e ∉ fanoutErrors pub img sel) := by
  refine ⟨?_, ?_, ?_, ?_, ?_, ?_, ?_, ?_, ?_, ?_, ?_⟩
  · rw [postEverywhereTrace_eq]
    simp [hfail]
  · rw [postEverywhereTrace_eq]
  · rw [postEverywhereTrace_eq]
  · intro e hm hsome
    rw [mem_fanoutErrors_iff]
    exact Or.inr (Or.inr (Or.inl ⟨hm, e, hsome, (mediumMsg_eq e).symm⟩))
  · intro e hm hsome
    rw [mem_fanoutErrors_iff]
    exact Or.inr (Or.inr (Or.inr (Or.inl ⟨hm, e, hsome, (twitterMsg_eq e).symm⟩)))
  · intro e hm hsome
    rw [mem_fanoutErrors_iff]
    exact Or.inr (Or.inr (Or.inr (Or.inr ⟨hm, e, hsome, (linkedinMsg_eq e).symm⟩)))
  · intro e hm himg hsome
    rw [mem_fanoutErrors_iff]
    exact Or.inl ⟨hm, himg, e, hsome, rfl⟩
  · intro hnone e hmem
    rw [mem_fanoutErrors_iff] at hmem
    rcases hmem with ⟨_, _, e0, _, hx⟩ | ⟨_, _, hx⟩ | ⟨_, e0, hs, hx⟩ |
        ⟨_, e0, _, hx⟩ | ⟨_, e0, _, hx⟩
    · simp [String.data] at hx
    · simp [String.data] at hx
    · rw [hnone] at hs
      exact absurd hs (by simp)
    · rw [twitterMsg_eq] at hx
      simp [String.data] at hx
    · rw [linkedinMsg_eq] at hx
      simp [String.data] at hx
  · intro hnone e hmem
    rw [mem_fanoutErrors_iff] at hmem
    rcases hmem with ⟨_, _, e0, _, hx⟩ | ⟨_, _, hx⟩ | ⟨_, e0, _, hx⟩ |
        ⟨_, e0, hs, hx⟩ | ⟨_, e0, _, hx⟩
    · simp [String.data] at hx
    · simp [String.data] at hx
    · rw [mediumMsg_eq] at hx
      simp [String.data] at hx
    · rw [hnone] at hs
      exact absurd hs (by simp)
    · rw [linkedinMsg_eq] at hx
      simp [String.data] at hx
  · intro hnone e hmem
    rw [mem_fanoutErrors_iff] at hmem
    rcases hmem with ⟨_, _, e0, _, hx⟩ | ⟨_, _, hx⟩ | ⟨_, e0, _, hx⟩ |
        ⟨_, e0, _, hx⟩ | ⟨_, e0, hs, hx⟩
    · simp [String.data] at hx
    · simp [String.data] at hx
    · rw [mediumMsg_eq] at hx
      simp [String.data] at hx
    · rw [twitterMsg_eq] at hx
      simp [String.data] at hx
    · rw [hnone] at hs
      exact absurd hs (by simp)
  · intro hnone himg e hmem
    rw [mem_fanoutErrors_iff] at hmem
    rcases hmem with ⟨_, _, e0, hs, hx⟩ | ⟨_, himg2, hx⟩ | ⟨_, e0, _, hx⟩ |
        ⟨_, e0, _, hx⟩ | ⟨_, e0, _, hx⟩
    · rw [hnone] at hs
      exact absurd hs (by simp)
    · exact absurd himg2 himg
    · rw [mediumMsg_eq] at hx
      simp [String.data] at hx
    · rw [twitterMsg_eq] at hx
      simp [String.data] at hx
    · rw [linkedinMsg_eq] at hx
      simp [String.data] at hx

/-- Witness for C3: Medium selected and failing with reason boom, Twitter
selected and succeeding; the aggregate is non-nil and lists the failure. -/
theorem c3_fanout_failure_aggregation_witness :
    fanoutErrors ⟨none, some ("boom".data), none, none⟩ ("i".data)
        [("medium".data), ("twitter".data)] ≠ [] ∧
    (postEverywhereTrace ⟨none, some ("boom".data), none, none⟩ ("i".data)
        [("medium".data), ("twitter".data)]).2 =
      some (("some platforms failed: ".data) ++
        List.intercalate ("; ".data)
          (fanoutErrors ⟨none, some ("boom".data), none, none⟩ ("i".data)
            [("medium".data), ("twitter".data)])) :=
  ⟨by decide, (c3_fanout_failure_aggregation _ _ _ (by decide)).1⟩

/-- C4 is false as stated: with Substack selected by name but no main image
URL provided, the Substack publisher is never invoked. -/
theorem c4_counterexample :
    contains [("substack".data)] ("substack".data) = true ∧
    (postEverywhereTrace ⟨none, none, none, none⟩ []
      [("substack".data)]).1.invoked = [] := by
  decide

/-- C4 (amended): a publisher is invoked iff its platform name is in the
selection (case-insensitively) and, for Substack only, a main image URL was
provided; invocations happen in the fixed order Substack, Medium, Twitter,
LinkedIn; an empty selection invokes nothing and returns nil. -/
theorem c4_selection_governs_invocation (pub : PublisherOutcomes) (img : Str)
    (sel : List Str) :
    (postEverywhereTrace pub img sel).1.invoked = fanoutInvoked img sel ∧
    (∀ nm, nm ∈ (postEverywhereTrace pub img sel).1.invoked ↔
      ((contains sel ("substack".data) = true ∧ img ≠ [] ∧ nm = ("Substack".data)) ∨
       (contains sel ("medium".data) = true ∧ nm = ("Medium".data)) ∨
       (contains sel ("twitter".data) = true ∧ nm = ("Twitter".data)) ∨
       (contains sel ("linkedin".data) = true ∧ nm = ("LinkedIn".data)))) ∧
    (sel = [] → (postEverywhereTrace pub img sel).1.invoked = [] ∧
      (postEverywhereTrace pub img sel).2 = none) := by
  refine ⟨?_, ?_, ?_⟩
  · rw [postEverywhereTrace_eq]
  · intro nm
    rw [postEverywhereTrace_eq]
    exact mem_fanoutInvoked_iff img sel nm
  · intro hsel
    subst hsel
    refine ⟨?_, ?_⟩
    · rw [postEverywhereTrace_eq]
      simp [fanoutInvoked, substackInvoked, platformInvoked, contains]
    · rw [postEverywhereTrace_eq]
      simp [fanoutErrors, substackErrors, platformErrors, contains]

/-- Witness for C4 (amended) at the empty selection: no invocation and a
nil (success) result. -/
theorem c4_selection_governs_invocation_witness :
    (postEverywhereTrace ⟨none, none, none, none⟩ ("i".data) []).1.invoked = [] ∧
    (postEverywhereTrace ⟨none, none, none, none⟩ ("i".data) []).2 = none :=
  (c4_selection_governs_invocation ⟨none, none, none, none⟩ ("i".data) []).2.2 rfl

/-- C5: with Substack selected and an absent main image URL, the fan-out
fails fast for Substack without invoking its publisher, records the fixed
failure message in the aggregated error, and still attempts every other
selected platform. -/
theorem c5_substack_missing_image_fails_fast (pub : PublisherOutcomes)
    (sel : List Str) (hsel : contains sel ("substack".data) = true) :
    ("Substack: mainImageURL is required but not provided".data) ∈
      (postEverywhereTrace pub [] sel).1.errors ∧
    ("Substack".data) ∉ (postEverywhereTrace pub [] sel).1.invoked ∧
    (postEverywhereTrace pub [] sel).2 =
      some (("some platforms failed: ".data) ++
        List.intercalate ("; ".data) ((postEverywhereTrace pub [] sel).1.errors)) ∧
    (contains sel ("medium".data) = true →
      ("Medium".data) ∈ (postEverywhereTrace pub [] sel).1.invoked) ∧
    (contains sel ("twitter".data) = true →
      ("Twitter".data) ∈ (postEverywhereTrace pub [] sel).1.invoked) ∧
    (contains sel ("linkedin".data) = true →
      ("LinkedIn".data) ∈ (postEverywhereTrace pub [] sel).1.invoked) := by
  have hmem : ("Substack: mainImageURL is required but not provided".data) ∈
      fanoutErrors pub [] sel :=
    (mem_fanoutErrors_iff pub [] sel _).mpr (Or.inr (Or.inl ⟨hsel, rfl, rfl⟩))
  have hne : fanoutErrors pub [] sel ≠ [] := by
    intro h
    rw [h] at hmem
    exact absurd hmem (List.not_mem_nil _)
  refine ⟨?_, ?_, ?_, ?_, ?_, ?_⟩
  · rw [postEverywhereTrace_eq]
    exact hmem
  · rw [postEverywhereTrace_eq]
    intro hc
    have hc2 : ("Substack".data) ∈ fanoutInvoked [] sel := hc
    rw [mem_fanoutInvoked_iff] at hc2
    rcases hc2 with ⟨_, himg, _⟩ | ⟨_, hx⟩ | ⟨_, hx⟩ | ⟨_, hx⟩
    · exact himg rfl
    · exact absurd hx (by decide)
    · exact absurd hx (by decide)
    · exact absurd hx (by decide)
  · rw [postEverywhereTrace_eq]
    simp [hne]
  · intro hm
    rw [postEverywhereTrace_eq]
    exact (mem_fanoutInvoked_iff [] sel _).mpr (Or.inr (Or.inl ⟨hm, rfl⟩))
  · intro hm
    rw [postEverywhereTrace_eq]
    exact (mem_fanoutInvoked_iff [] sel _).mpr (Or.inr (Or.inr (Or.inl ⟨hm, rfl⟩)))
  · intro hm
    rw [postEverywhereTrace_eq]
    exact (mem_fanoutInvoked_iff [] sel _).mpr (Or.inr (Or.inr (Or.inr ⟨hm, rfl⟩)))

/-- Witness for C5: Substack and Medium selected, no image; the fixed
Substack failure is recorded while Medium is still invoked. -/
theorem c5_substack_missing_image_fails_fast_witness :
    contains [("substack".data), ("medium".data)] ("substack".data) = true ∧
    ("Substack: mainImageURL is required but not provided".data) ∈
      (postEverywhereTrace ⟨none, none, none, none⟩ []
        [("substack".data), ("medium".data)]).1.errors ∧
    ("Medium".data) ∈
      (postEverywhereTrace ⟨none, none, none, none⟩ []
        [("substack".data), ("medium".data)]).1.invoked :=
  ⟨by decide,
    (c5_substack_missing_image_fails_fast ⟨none, none, none, none⟩ _ (by decide)).1,
    (c5_substack_missing_image_fails_fast ⟨none, none, none, none⟩ _ (by decide)).2.2.2.1
      (by decide)⟩

theorem lastIndexOfChar_lt_length (s : Str) (c : Char) (p : Nat)
    (h : lastIndexOfChar s c = some p) : p < s.length := by
  induction s generalizing p with
  | nil => simp [lastIndexOfChar] at h
  | cons a t ih =>
    simp only [lastIndexOfChar] at h
    cases hrec : lastIndexOfChar t c with
    | some i =>
      rw [hrec] at h
      obtain rfl : i + 1 = p := by simpa using h
      have := ih i hrec
      simp
      omega
    | none =>
      rw [hrec] at h
      by_cases hac : a = c
      · rw [if_pos hac] at h
        obtain rfl : 0 = p := by simpa using h
        simp
      · rw [if_neg hac] at h
        simp at h

theorem lastIndexOfChar_get (s : Str) (c : Char) (p : Nat)
    (h : lastIndexOfChar s c = some p) : s.get? p = some c := by
  induction s generalizing p with
  | nil => simp [lastIndexOfChar] at h
  | cons a t ih =>
    simp only [lastIndexOfChar] at h
    cases hrec : lastIndexOfChar t c with
    | some i =>
      rw [hrec] at h
      obtain rfl : i + 1 = p := by simpa using h
      simpa using ih i hrec
    | none =>
      rw [hrec] at h
      by_cases hac : a = c
      · rw [if_pos hac] at h
        obtain rfl : 0 = p := by simpa using h
        simpa using hac
      · rw [if_neg hac] at h
        simp at h

set_option maxRecDepth 8192 in
/-- C6 is false as stated: for a 156-character text whose only period sits
exactly at the midpoint (index 75) of the 150-character prefix, the claimed
rule cuts after the period while the code hard-cuts at 150. -/
theorem c6_counterexample :
    truncateForTwitter
        (List.replicate 75 'a' ++ ['.'] ++ List.replicate 80 'b') 150 ≠
      sentenceTruncClaim
        (List.replicate 75 'a' ++ ['.'] ++ List.replicate 80 'b') 150 ∧
    truncateForTwitter
        (List.replicate 75 'a' ++ ['.'] ++ List.replicate 80 'b') 150 =
      (List.replicate 75 'a' ++ ['.'] ++ List.replicate 80 'b').take 150 ++ dots := by
  constructor
  · decide
  · decide

/-- C6 (amended): for text beyond the maximum length the code takes the
maxLen prefix and cuts right after the prefix's last period only when that
period sits strictly past the midpoint maxLen / 2 (the cut position really
holds a period); otherwise, and when there is no period at all, it returns
the full prefix; the ellipsis is appended in every truncating arm; short
text is returned unchanged. -/
theorem c6_sentence_truncation (s : Str) (maxLen : Nat) :
    truncateForTwitter s maxLen = sentenceTruncAmended s maxLen ∧
    (s.length ≤ maxLen → truncateForTwitter s maxLen = s) ∧
    (s.length > maxLen →
      (∀ p, lastIndexOfChar (s.take maxLen) '.' = some p → p > maxLen / 2 →
        truncateForTwitter s maxLen = (s.take maxLen).take (p + 1) ++ dots ∧
          (s.take maxLen).get? p = some '.') ∧
      (∀ p, lastIndexOfChar (s.take maxLen) '.' = some p → p ≤ maxLen / 2 →
        truncateForTwitter s maxLen = s.take maxLen ++ dots) ∧
      (lastIndexOfChar (s.take maxLen) '.' = none →
        truncateForTwitter s maxLen = s.take maxLen ++ dots)) := by
  refine ⟨?_, ?_, ?_⟩
  · unfold truncateForTwitter sentenceTruncAmended
    by_cases h : s.length > maxLen
    · rw [if_pos h, if_neg (by omega)]
    · rw [if_neg h, if_pos (by omega)]
  · intro h
    unfold truncateForTwitter
    rw [if_neg (by omega)]
  · intro h
    refine ⟨?_, ?_, ?_⟩
    · intro p hp hgt
      unfold truncateForTwitter
      rw [if_pos h]
      simp only [hp]
      rw [if_pos hgt]
      exact ⟨rfl, lastIndexOfChar_get _ _ _ hp⟩
    · intro p hp hle
      unfold truncateForTwitter
      rw [if_pos h]
      simp only [hp]
      rw [if_neg (by omega)]
    · intro hp
      unfold truncateForTwitter
      rw [if_pos h]
      simp only [hp]

set_option maxRecDepth 8192 in
/-- Witness for C6 (amended) at concrete inputs: a period at index 100 of
the 150-prefix triggers the sentence cut, and short text is unchanged. -/
theorem c6_sentence_truncation_witness :
    truncateForTwitter
        (List.replicate 100 'a' ++ ['.'] ++ List.replicate 80 'b') 150 =
      ((List.replicate 100 'a' ++ ['.'] ++ List.replicate 80 'b').take 150).take 101 ++
        dots ∧
    truncateForTwitter ("short.text".data) 150 = ("short.text".data) := by
  constructor
  · exact (((c6_sentence_truncation _ 150).2.2 (by decide)).1 100 (by decide) (by decide)).1
  · exact (c6_sentence_truncation _ 150).2.1 (by decide)

set_option maxRecDepth 8192 in
/-- C7 is false as stated: a 151-character period-free summary gives a
summary part of 153 characters (150-character prefix plus the 3-character
ellipsis), exceeding the claimed 150-character bound. -/
theorem c7_counterexample :
    150 <
      ((firstPassParts
          ⟨("x".data), ("T".data), some (List.replicate 151 'a'), ("c".data), none⟩
          [] []).getD 1 []).length := by
  decide

/-- C7 (amended): the summary-or-content part of the first pass is at most
153 literal characters: a summary or content of at most 150 characters is
used unchanged, and a longer one is cut to at most a 150-character prefix
before the 3-character ellipsis is appended. -/
theorem c7_body_part_bound (s : Str) :
    (truncateForTwitter s 150).length ≤ 153 ∧
    (s.length ≤ 150 → truncateForTwitter s 150 = s) := by
  constructor
  · unfold truncateForTwitter
    by_cases h : s.length > 150
    · rw [if_pos h]
      cases hli : lastIndexOfChar (s.take 150) '.' with
      | some p =>
        simp only [hli]
        have hp := lastIndexOfChar_lt_length _ _ _ hli
        rw [List.length_take] at hp
        by_cases hgt : p > 150 / 2
        · rw [if_pos hgt]
          simp only [dots, List.length_append, List.length_take, List.length_cons,
            List.length_nil]
          omega
        · rw [if_neg hgt]
          simp only [dots, List.length_append, List.length_take, List.length_cons,
            List.length_nil]
          omega
      | none =>
        simp only [hli]
        simp only [dots, List.length_append, List.length_take, List.length_cons,
          List.length_nil]
        omega
    · rw [if_neg h]
      omega
  · intro h
    unfold truncateForTwitter
    rw [if_neg (by omega)]

/-- Witness for C7 (amended): the 151-character summary part caps at 153,
and a short text passes through unchanged. -/
theorem c7_body_part_bound_witness :
    (truncateForTwitter (List.replicate 151 'a') 150).length ≤ 153 ∧
    truncateForTwitter ("ab".data) 150 = ("ab".data) :=
  ⟨(c7_body_part_bound (List.replicate 151 'a')).1,
    (c7_body_part_bound ("ab".data)).2 (by decide)⟩

theorem truncateForTwitter_ne_nil (s : Str) (h : s ≠ []) :
    truncateForTwitter s 150 ≠ [] := by
  unfold truncateForTwitter
  by_cases hl : s.length > 150
  · rw [if_pos hl]
    cases hli : lastIndexOfChar (s.take 150) '.' with
    | some p =>
      simp only [hli]
      by_cases hgt : p > 150 / 2 <;> simp [hgt, dots]
    | none =>
      simp only [hli]
      simp [dots]
  · rw [if_neg hl]
    exact h

theorem buildBlogPostURL_ne_nil (baseURL postID : Str) (hb : baseURL ≠ [])
    (hi : postID ≠ []) : buildBlogPostURL baseURL postID ≠ [] := by
  unfold buildBlogPostURL
  rw [if_neg (by simp [hb, hi])]
  simp [String.data]

theorem collectHashtags_elt_ne_nil (tags : List BlogTag) (n : Nat) :
    ∀ x ∈ collectHashtags tags n, x ≠ [] := by
  intro x hx
  simp only [collectHashtags, List.mem_filterMap] at hx
  obtain ⟨tag, _, htag⟩ := hx
  by_cases h : formatHashtag tag.value = []
  · rw [if_pos h] at htag
    exact absurd htag (by simp)
  · rw [if_neg h] at htag
    obtain rfl : '#' :: formatHashtag tag.value = x := by simpa using htag
    simp

theorem intercalate_ne_nil_of_head (sep : Str) (l : List Str)
    (hl : l ≠ []) (helts : ∀ x ∈ l, x ≠ []) :
    List.intercalate sep l ≠ [] := by
  cases l with
  | nil => exact absurd rfl hl
  | cons a t =>
    have ha : a ≠ [] := helts a (List.mem_cons_self a t)
    cases t with
    | nil => simpa [List.intercalate] using ha
    | cons b t2 =>
      rw [List.intercalate, List.intersperse_cons_cons]
      simp [ha]

theorem isEmpty_true_iff (l : Str) : (l.isEmpty = true) ↔ l = [] := by
  cases l <;> simp

theorem isEmpty_false_iff (l : Str) : (l.isEmpty = false) ↔ l ≠ [] := by
  cases l <;> simp

theorem truncateForTwitter_nil : truncateForTwitter [] 150 = [] := rfl

theorem intercalate_hashtags_ne_nil (tags : List BlogTag)
    (hh : collectHashtags tags 4 ≠ []) :
    List.intercalate [' '] (collectHashtags tags 4) ≠ [] :=
  intercalate_ne_nil_of_head [' '] _ hh (collectHashtags_elt_ne_nil tags 4)

theorem intercalate_nil_parts (sep : Str) : List.intercalate sep ([] : List Str) = [] := rfl

theorem collectHashtags_nil (n : Nat) : collectHashtags [] n = [] := by
  cases n <;> rfl

theorem isEmpty_eq_false_of_ne (l : Str) (h : ¬l = []) : l.isEmpty = false := by
  cases l <;> simp_all

theorem isEmpty_eq_true_of_eq (l : Str) (h : l = []) : l.isEmpty = true := by
  simp [h]

theorem firstPassParts_eq_spec (p : BlogPost) (tags : List BlogTag) (baseURL : Str)
    (hid : p.id ≠ []) :
    firstPassParts p tags baseURL =
      (specMicroblogParts p tags baseURL).filter fun part => !part.isEmpty := by
  obtain ⟨pid, ptitle, psummary, pcontent, purl⟩ := p
  simp only [firstPassParts, bodyStep, specMicroblogParts, specBody, specUrlPart,
    specHashtagPart] at hid ⊢
  cases psummary with
  | none =>
    cases purl with
    | none =>
      by_cases ht : ptitle = [] <;> by_cases hc : pcontent = [] <;>
        by_cases hb : baseURL = [] <;> by_cases hh : collectHashtags tags 4 = [] <;>
          by_cases htg : tags = [] <;>
            simp_all [List.filter, isEmpty_true_iff, isEmpty_false_iff,
              truncateForTwitter_ne_nil, buildBlogPostURL_ne_nil,
              intercalate_hashtags_ne_nil, truncateForTwitter_nil, intercalate_nil_parts,
              collectHashtags_nil, isEmpty_eq_false_of_ne, isEmpty_eq_true_of_eq]
    | some u =>
      by_cases ht : ptitle = [] <;> by_cases hc : pcontent = [] <;>
        by_cases hu : u = [] <;> by_cases hb : baseURL = [] <;>
          by_cases hh : collectHashtags tags 4 = [] <;>
            by_cases htg : tags = [] <;>
              simp_all [List.filter, isEmpty_true_iff, isEmpty_false_iff,
                truncateForTwitter_ne_nil, buildBlogPostURL_ne_nil,
                intercalate_hashtags_ne_nil, truncateForTwitter_nil, intercalate_nil_parts,
              collectHashtags_nil, isEmpty_eq_false_of_ne, isEmpty_eq_true_of_eq]
  | some sm =>
    cases purl with
    | none =>
      by_cases ht : ptitle = [] <;> by_cases hsm : sm = [] <;>
        by_cases hc : pcontent = [] <;> by_cases hb : baseURL = [] <;>
          by_cases hh : collectHashtags tags 4 = [] <;>
            by_cases htg : tags = [] <;>
              simp_all [List.filter, isEmpty_true_iff, isEmpty_false_iff,
                truncateForTwitter_ne_nil, buildBlogPostURL_ne_nil,
                intercalate_hashtags_ne_nil, truncateForTwitter_nil, intercalate_nil_parts,
              collectHashtags_nil, isEmpty_eq_false_of_ne, isEmpty_eq_true_of_eq]
    | some u =>
      by_cases ht : ptitle = [] <;> by_cases hsm : sm = [] <;>
        by_cases hc : pcontent = [] <;> by_cases hu : u = [] <;>
          by_cases hb : baseURL = [] <;>
            by_cases hh : collectHashtags tags 4 = [] <;>
              by_cases htg : tags = [] <;>
                simp_all [List.filter, isEmpty_true_iff, isEmpty_false_iff,
                  truncateForTwitter_ne_nil, buildBlogPostURL_ne_nil,
                  intercalate_hashtags_ne_nil, truncateForTwitter_nil, intercalate_nil_parts,
              collectHashtags_nil, isEmpty_eq_false_of_ne, isEmpty_eq_true_of_eq]

/-- C2: when the joined candidate text — title, then summary (preferred) or
content under the 150-character budget, then the post's own URL or the
constructed permalink, then up to four non-blank hashtags, with non-empty
parts joined by a blank line — has effective length at most 280, the
composer returns exactly that joined text unchanged.  A uuid renders to a
non-empty string, hence the id hypothesis. -/
theorem c2_within_budget_returns_join (p : BlogPost) (tags : List BlogTag)
    (baseURL : Str) (hid : p.id ≠ [])
    (hle : calculateTwitterLength (specMicroblogCandidate p tags baseURL) ≤ 280) :
    buildTwitterPostText p tags baseURL = specMicroblogCandidate p tags baseURL := by
  have hparts := firstPassParts_eq_spec p tags baseURL hid
  unfold buildTwitterPostText
  rw [hparts]
  have hcand : List.intercalate nl2
      ((specMicroblogParts p tags baseURL).filter fun part => !part.isEmpty) =
      specMicroblogCandidate p tags baseURL := rfl
  rw [hcand]
  rw [if_neg (by omega)]

/-- Witness for C2: a short post (title, content, one tag, no URL) is
returned exactly as its joined candidate text. -/
theorem c2_within_budget_returns_join_witness :
    (⟨("x".data), ("Hi".data), none, ("Yo".data), none⟩ : BlogPost).id ≠ [] ∧
    calculateTwitterLength
      (specMicroblogCandidate ⟨("x".data), ("Hi".data), none, ("Yo".data), none⟩
        [⟨("go".data)⟩] []) ≤ 280 ∧
    buildTwitterPostText ⟨("x".data), ("Hi".data), none, ("Yo".data), none⟩
        [⟨("go".data)⟩] [] =
      specMicroblogCandidate ⟨("x".data), ("Hi".data), none, ("Yo".data), none⟩
        [⟨("go".data)⟩] [] :=
  ⟨by decide, by decide,
    c2_within_budget_returns_join _ _ _ (by decide) (by decide)⟩

theorem goIndex_eq_none_of_not_mem (s pat : Str) (c : Char) (hcp : c ∈ pat)
    (hcs : c ∉ s) : goIndex s pat = none := by
  induction s with
  | nil =>
    unfold goIndex
    rw [if_neg]
    intro hpre
    rw [List.isPrefixOf_iff_prefix] at hpre
    have := List.eq_nil_of_prefix_nil hpre
    rw [this] at hcp
    exact absurd hcp (List.not_mem_nil c)
  | cons a t ih =>
    unfold goIndex
    rw [if_neg]
    · rw [ih (fun hmem => hcs (List.mem_cons_of_mem a hmem))]
      rfl
    · intro hpre
      rw [List.isPrefixOf_iff_prefix] at hpre
      exact hcs (hpre.subset hcp)

theorem calcForPattern_of_none (text pat : Str) (base : Int)
    (h : goIndex text pat = none) : calcForPattern text pat base = base := by
  unfold calcForPattern
  rw [h]

theorem calculateTwitterLength_of_no_slash (s : Str) (h : '/' ∉ s) :
    calculateTwitterLength s = (s.length : Int) := by
  unfold calculateTwitterLength
  rw [calcForPattern_of_none s httpPattern _
    (goIndex_eq_none_of_not_mem s httpPattern '/' (by decide) h)]
  rw [calcForPattern_of_none s httpsPattern _
    (goIndex_eq_none_of_not_mem s httpsPattern '/' (by decide) h)]

theorem not_mem_take (c : Char) (n : Nat) (s : Str) (h : c ∉ s) : c ∉ s.take n :=
  fun hc => h (List.mem_of_mem_take hc)

theorem no_slash_truncate (s : Str) (maxLen : Nat) (h : '/' ∉ s) :
    '/' ∉ truncateForTwitter s maxLen := by
  unfold truncateForTwitter
  by_cases hl : s.length > maxLen
  · rw [if_pos hl]
    cases hli : lastIndexOfChar (s.take maxLen) '.' with
    | some p =>
      simp only [hli]
      by_cases hgt : p > maxLen / 2
      · rw [if_pos hgt]
        intro hmem
        rcases List.mem_append.mp hmem with hm | hm
        · exact not_mem_take _ _ _ (not_mem_take _ _ _ h) hm
        · exact absurd hm (by decide)
      · rw [if_neg hgt]
        intro hmem
        rcases List.mem_append.mp hmem with hm | hm
        · exact not_mem_take _ _ _ h hm
        · exact absurd hm (by decide)
    | none =>
      simp only [hli]
      intro hmem
      rcases List.mem_append.mp hmem with hm | hm
      · exact not_mem_take _ _ _ h hm
      · exact absurd hm (by decide)
  · rw [if_neg hl]
    exact h

theorem no_slash_fallbackTruncate (s : Str) (a : Int) (h : '/' ∉ s) :
    '/' ∉ fallbackTruncate s a := by
  unfold fallbackTruncate
  by_cases hl : (s.length : Int) > a
  · rw [if_pos hl]
    cases hli : lastIndexOfChar (s.take (a - 3).toNat) '.' with
    | some p =>
      simp only [hli]
      by_cases hgt : (p : Int) > a / 2
      · rw [if_pos hgt]
        intro hmem
        rcases List.mem_append.mp hmem with hm | hm
        · exact not_mem_take _ _ _ (not_mem_take _ _ _ h) hm
        · exact absurd hm (by decide)
      · rw [if_neg hgt]
        intro hmem
        rcases List.mem_append.mp hmem with hm | hm
        · exact not_mem_take _ _ _ h hm
        · exact absurd hm (by decide)
    | none =>
      simp only [hli]
      intro hmem
      rcases List.mem_append.mp hmem with hm | hm
      · exact not_mem_take _ _ _ h hm
      · exact absurd hm (by decide)
  · rw [if_neg hl]
    exact h

theorem not_mem_intercalate (c : Char) (sep : Str) (l : List Str)
    (hsep : c ∉ sep) (hl : ∀ part ∈ l, c ∉ part) :
    c ∉ List.intercalate sep l := by
  induction l with
  | nil => simp [List.intercalate]
  | cons a t ih =>
    cases t with
    | nil =>
      have := hl a (List.mem_cons_self a [])
      simpa [List.intercalate] using this
    | cons b t2 =>
      have ha := hl a (List.mem_cons_self a (b :: t2))
      have hrest : c ∉ List.intercalate sep (b :: t2) :=
        ih fun part hpart => hl part (List.mem_cons_of_mem a hpart)
      unfold List.intercalate at hrest ⊢
      rw [List.intersperse_cons_cons]
      intro hmem
      rw [List.flatten_cons, List.flatten_cons] at hmem
      rcases List.mem_append.mp hmem with hm | hm
      · exact ha hm
      · rcases List.mem_append.mp hm with hm2 | hm2
        · exact hsep hm2
        · exact hrest hm2

theorem no_slash_hashtag_char (c : Char) (h : isHashtagResultChar c = true) :
    c ≠ '/' := by
  intro rfl0
  rw [isHashtagResultChar_iff] at h
  subst rfl0
  simp at h

theorem no_slash_hashtag_elt (tags : List BlogTag) (n : Nat) :
    ∀ x ∈ collectHashtags tags n, '/' ∉ x := by
  intro x hx hmem
  simp only [collectHashtags, List.mem_filterMap] at hx
  obtain ⟨tag, _, htag⟩ := hx
  by_cases h : formatHashtag tag.value = []
  · rw [if_pos h] at htag
    exact absurd htag (by simp)
  · rw [if_neg h] at htag
    obtain rfl : '#' :: formatHashtag tag.value = x := by simpa using htag
    rcases List.mem_cons.mp hmem with hsl | hsl
    · exact absurd hsl.symm (by decide)
    · exact no_slash_hashtag_char '/' (formatHashtag_chars tag.value '/' hsl) rfl

theorem not_mem_append_of (c : Char) (l1 l2 : Str) (h1 : c ∉ l1) (h2 : c ∉ l2) :
    c ∉ l1 ++ l2 := by
  intro h
  rcases List.mem_append.mp h with h | h
  · exact h1 h
  · exact h2 h

theorem length_dots : dots.length = 3 := rfl

theorem no_slash_firstPass_join (p : BlogPost) (tags : List BlogTag) (hid : p.id ≠ [])
    (hurl : p.url = none ∨ p.url = some []) (ht : '/' ∉ p.title)
    (hs : ∀ s, p.summary = some s → '/' ∉ s) (hc : '/' ∉ p.content) :
    '/' ∉ List.intercalate nl2 (firstPassParts p tags []) := by
  rw [firstPassParts_eq_spec p tags [] hid]
  apply not_mem_intercalate _ _ _ (by decide)
  intro part hpf
  have hpl := List.mem_of_mem_filter hpf
  simp only [specMicroblogParts, List.mem_cons, List.not_mem_nil, or_false] at hpl
  rcases hpl with rfl | rfl | rfl | rfl
  · exact ht
  · unfold specBody
    cases hsum : p.summary with
    | none => exact no_slash_truncate _ _ hc
    | some sm =>
      show '/' ∉
        (if sm ≠ [] then truncateForTwitter sm 150 else truncateForTwitter p.content 150)
      by_cases hsm : sm = []
      · rw [if_neg (fun hne => hne hsm)]
        exact no_slash_truncate _ _ hc
      · rw [if_pos hsm]
        exact no_slash_truncate _ _ (hs sm hsum)
  · rcases hurl with hu | hu <;> simp [specUrlPart, hu]
  · unfold specHashtagPart
    exact not_mem_intercalate _ _ _ (by decide) (no_slash_hashtag_elt tags 4)

theorem no_slash_fallbackTitle (p : BlogPost) (ht : '/' ∉ p.title) :
    '/' ∉ fallbackTitle p := by
  unfold fallbackTitle
  by_cases h : p.title ≠ []
  · rw [if_pos h]
    exact not_mem_append_of _ _ _ ht (by decide)
  · rw [if_neg h]
    simp

theorem fallbackUrl_nil (p : BlogPost) (hurl : p.url = none ∨ p.url = some []) :
    fallbackUrl p [] = [] := by
  rcases hurl with hu | hu <;> simp [fallbackUrl, hu]

theorem no_slash_fallbackHashtags (tags : List BlogTag) :
    '/' ∉ fallbackHashtags tags := by
  simp only [fallbackHashtags]
  by_cases htg : tags ≠ []
  · rw [if_pos htg]
    by_cases hh : collectHashtags tags 3 = []
    · rw [if_neg (fun hne => hne hh)]
      simp
    · rw [if_pos hh]
      exact not_mem_append_of _ _ _ (by decide)
        (not_mem_intercalate _ _ _ (by decide) (no_slash_hashtag_elt tags 3))
  · rw [if_neg htg]
    simp

theorem no_slash_rawContent (p : BlogPost)
    (hs : ∀ s, p.summary = some s → '/' ∉ s) (hc : '/' ∉ p.content) :
    '/' ∉ rawContent p := by
  unfold rawContent
  cases hsum : p.summary with
  | none =>
    show '/' ∉ (if p.content ≠ [] then p.content else [])
    by_cases h : p.content ≠ []
    · rw [if_pos h]
      exact hc
    · rw [if_neg h]
      simp
  | some sm =>
    show '/' ∉ (if sm ≠ [] then sm else (if p.content ≠ [] then p.content else []))
    by_cases hsm : sm ≠ []
    · rw [if_pos hsm]
      exact hs sm hsum
    · rw [if_neg hsm]
      by_cases h : p.content ≠ []
      · rw [if_pos h]
        exact hc
      · rw [if_neg h]
        simp

theorem urlLength_nil : (if ([] : Str) = [] then (0 : Int) else 23) = 0 := by
  simp


theorem twitterSecondCut_le (title content hashtags : Str)
    (h1 : '/' ∉ title) (h2 : '/' ∉ content) (h3 : '/' ∉ hashtags) :
    calculateTwitterLength (twitterSecondCut title content [] hashtags 0) ≤ 280 := by
  have hsl1 : '/' ∉ title ++ content ++ ([] : Str) ++ hashtags := by
    repeat
      first
        | exact h1
        | exact h2
        | exact h3
        | exact List.not_mem_nil '/'
        | apply not_mem_append_of
  have heq1 := calculateTwitterLength_of_no_slash _ hsl1
  simp only [twitterSecondCut]
  split
  · next h280 =>
    rw [heq1] at h280
    split
    · next hcontent =>
      rw [heq1] at hcontent ⊢
      rw [calculateTwitterLength_of_no_slash]
      · simp only [List.length_append, List.length_take, length_dots,
          List.length_nil] at hcontent ⊢
        simp only [List.length_append, List.length_nil] at h280
        omega
      · repeat
          first
            | exact h1
            | exact h2
            | exact h3
            | exact List.not_mem_nil '/'
            | exact (by decide : ('/' : Char) ∉ dots)
            | apply not_mem_append_of
            | apply not_mem_take
    · next hcontent =>
      split
      · next hmax =>
        rw [calculateTwitterLength_of_no_slash]
        · simp only [List.length_append, List.length_take, length_dots,
            List.length_nil] at hmax ⊢
          omega
        · repeat
            first
              | exact List.not_mem_nil '/'
              | exact (by decide : ('/' : Char) ∉ dots)
              | exact hsl1
              | apply not_mem_append_of
              | apply not_mem_take
      · next hmax =>
        rw [heq1] at hcontent ⊢
        simp only [List.length_append, List.length_nil] at hmax hcontent ⊢
        omega
  · next h280 =>
    rw [heq1]
    rw [heq1] at h280
    omega

theorem twitterFallback_le (p : BlogPost) (tags : List BlogTag)
    (hurl : p.url = none ∨ p.url = some []) (ht : '/' ∉ p.title)
    (hs : ∀ s, p.summary = some s → '/' ∉ s) (hc : '/' ∉ p.content) :
    calculateTwitterLength (twitterFallback p tags []) ≤ 280 := by
  have hfu : fallbackUrl p [] = [] := fallbackUrl_nil p hurl
  simp only [twitterFallback, hfu, urlLength_nil]
  exact twitterSecondCut_le _ _ _ (no_slash_fallbackTitle p ht)
    (no_slash_fallbackTruncate _ _ (no_slash_rawContent p hs hc))
    (no_slash_fallbackHashtags tags)

/-- C1 (amended): for every blog post whose URL field is absent or empty,
whose title, summary and content contain no slash character (in particular
no URLs), with a non-empty id and an empty base URL, the composed text has
effective length at most 280, on every path of the composer. -/
theorem c1_effective_length_bound (p : BlogPost) (tags : List BlogTag)
    (hid : p.id ≠ []) (hurl : p.url = none ∨ p.url = some [])
    (ht : '/' ∉ p.title) (hs : ∀ s, p.summary = some s → '/' ∉ s)
    (hc : '/' ∉ p.content) :
    calculateTwitterLength (buildTwitterPostText p tags []) ≤ 280 := by
  simp only [buildTwitterPostText]
  split
  · exact twitterFallback_le p tags hurl ht hs hc
  · next h280 =>
    rw [calculateTwitterLength_of_no_slash _
      (no_slash_firstPass_join p tags hid hurl ht hs hc)] at h280 ⊢
    omega

set_option maxRecDepth 40000 in
/-- C1 is false as stated: for a post with a one-character title and
content, a genuine 30-character https URL, and one 249-character tag, the
last-resort hard truncation cuts inside the hashtag block while the intact
URL is still charged at 23, leaving an effective length of 282. -/
theorem c1_counterexample :
    calculateTwitterLength
      (buildTwitterPostText
        ⟨("x".data), ("T".data), none, ("C".data),
          some ("https://ex.com/bbbbbbbbbbbbbbb".data)⟩
        [⟨List.replicate 249 'a'⟩] []) = 282 := by
  decide

/-- Witness for C1 (amended): a URL-free post with a long title still
lands at effective length at most 280. -/
theorem c1_effective_length_bound_witness :
    (⟨("x".data), List.replicate 300 'a', none, ("C".data), none⟩ : BlogPost).id ≠ [] ∧
    calculateTwitterLength
      (buildTwitterPostText
        ⟨("x".data), List.replicate 300 'a', none, ("C".data), none⟩
        [⟨("go".data)⟩] []) ≤ 280 :=
  ⟨by decide,
    c1_effective_length_bound ⟨("x".data), List.replicate 300 'a', none, ("C".data), none⟩
      [⟨("go".data)⟩] (by decide) (Or.inl rfl) (by decide)
      (fun s hs => by simp at hs) (by decide)⟩

theorem goTake_eq (s : Str) (k : Int) (h1 : 0 ≤ k) (h2 : k ≤ (s.length : Int)) :
    goTake s k = some (s.take k.toNat) := by
  unfold goTake
  rw [if_pos ⟨h1, h2⟩]

theorem goDrop_eq (s : Str) (k : Nat) (h : k ≤ s.length) :
    goDrop s k = some (s.drop k) := by
  unfold goDrop
  rw [if_pos h]

theorem truncateForTwitterChecked_eq (s : Str) (maxLen : Nat) :
    truncateForTwitterChecked s maxLen = some (truncateForTwitter s maxLen) := by
  unfold truncateForTwitterChecked truncateForTwitter
  by_cases hl : s.length > maxLen
  · rw [if_pos hl, if_pos hl]
    rw [goTake_eq s (maxLen : Int) (by omega) (by omega)]
    rw [Int.toNat_natCast]
    cases hli : lastIndexOfChar (s.take maxLen) '.' with
    | some p =>
      simp only [hli]
      have hp := lastIndexOfChar_lt_length _ _ _ hli
      by_cases hgt : p > maxLen / 2
      · rw [if_pos hgt, if_pos hgt]
        rw [goTake_eq _ ((p : Int) + 1) (by omega) (by exact_mod_cast hp)]
        have htn : ((p : Int) + 1).toNat = p + 1 := by omega
        rw [htn]
      · rw [if_neg hgt, if_neg hgt]
    | none =>
      simp only [hli]
  · rw [if_neg hl, if_neg hl]

theorem fallbackTruncateChecked_eq (content : Str) (availableSpace : Int)
    (havail : 50 ≤ availableSpace) :
    fallbackTruncateChecked content availableSpace =
      some (fallbackTruncate content availableSpace) := by
  unfold fallbackTruncateChecked fallbackTruncate
  by_cases hl : (content.length : Int) > availableSpace
  · rw [if_pos hl, if_pos hl]
    rw [goTake_eq content (availableSpace - 3) (by omega) (by omega)]
    cases hli : lastIndexOfChar (content.take (availableSpace - 3).toNat) '.' with
    | some p =>
      simp only [hli]
      have hp := lastIndexOfChar_lt_length _ _ _ hli
      by_cases hgt : (p : Int) > availableSpace / 2
      · rw [if_pos hgt, if_pos hgt]
        rw [goTake_eq _ ((p : Int) + 1) (by omega) (by exact_mod_cast hp)]
        have htn : ((p : Int) + 1).toNat = p + 1 := by omega
        rw [htn]
      · rw [if_neg hgt, if_neg hgt]
    | none =>
      simp only [hli]
  · rw [if_neg hl, if_neg hl]

theorem wsOffset_le_length (s : Str) : wsOffset s ≤ s.length := by
  induction s with
  | nil => simp [wsOffset]
  | cons a t ih =>
    unfold wsOffset
    by_cases h : isTwitterWs a = true
    · rw [if_pos h]
      simp
    · rw [if_neg h]
      simp
      omega

theorem findUrlEnd_le_length (text : Str) (idx : Nat) (h : idx ≤ text.length) :
    findUrlEnd text idx ≤ text.length := by
  unfold findUrlEnd
  have := wsOffset_le_length (text.drop idx)
  rw [List.length_drop] at this
  omega

theorem goIndex_le_length (s pat : Str) (j : Nat) (h : goIndex s pat = some j) :
    j ≤ s.length := by
  induction s generalizing j with
  | nil =>
    unfold goIndex at h
    split at h
    · obtain rfl : (0 : Nat) = j := by simpa using h
      simp
    · simp at h
  | cons a t ih =>
    unfold goIndex at h
    split at h
    · obtain rfl : (0 : Nat) = j := by simpa using h
      simp
    · cases hrec : goIndex t pat with
      | none =>
        rw [hrec] at h
        simp at h
      | some i =>
        rw [hrec] at h
        obtain rfl : i + 1 = j := by simpa using h
        have := ih i hrec
        simp
        omega

theorem calcLoopChecked_eq (text pat : Str) (fuel idx : Nat) (base : Int)
    (hidx : idx ≤ text.length) :
    calcLoopChecked text pat fuel idx base = some (calcLoop text pat fuel idx base) := by
  induction fuel generalizing idx base with
  | zero => rfl
  | succ fuel ih =>
    simp only [calcLoopChecked, calcLoop]
    have hend : findUrlEnd text idx ≤ text.length := findUrlEnd_le_length text idx hidx
    rw [goDrop_eq text _ hend]
    cases hgi : goIndex (text.drop (findUrlEnd text idx)) pat with
    | none => simp only [hgi]
    | some j =>
      simp only [hgi]
      have hj := goIndex_le_length _ _ _ hgi
      rw [List.length_drop] at hj
      exact ih _ _ (by omega)

theorem calcForPatternChecked_eq (text pat : Str) (base : Int) :
    calcForPatternChecked text pat base = some (calcForPattern text pat base) := by
  unfold calcForPatternChecked calcForPattern
  cases hgi : goIndex text pat with
  | none => rfl
  | some idx =>
    exact calcLoopChecked_eq text pat _ idx base (goIndex_le_length _ _ _ hgi)

theorem calculateTwitterLengthChecked_eq (text : Str) :
    calculateTwitterLengthChecked text = some (calculateTwitterLength text) := by
  unfold calculateTwitterLengthChecked calculateTwitterLength
  rw [calcForPatternChecked_eq]
  exact calcForPatternChecked_eq text httpsPattern _

theorem bodyStepChecked_eq (p : BlogPost) (parts : List Str) :
    bodyStepChecked p parts = some (bodyStep p parts) := by
  unfold bodyStepChecked bodyStep
  cases p.summary with
  | none =>
    dsimp only
    by_cases hc : p.content ≠ []
    · rw [if_pos hc, if_pos hc, truncateForTwitterChecked_eq]
      rfl
    · rw [if_neg hc, if_neg hc]
  | some s =>
    dsimp only
    by_cases hsm : s ≠ []
    · rw [if_pos hsm, if_pos hsm, truncateForTwitterChecked_eq]
      rfl
    · rw [if_neg hsm, if_neg hsm]
      by_cases hc : p.content ≠ []
      · rw [if_pos hc, if_pos hc, truncateForTwitterChecked_eq]
        rfl
      · rw [if_neg hc, if_neg hc]

theorem firstPassPartsChecked_eq (p : BlogPost) (tags : List BlogTag) (baseURL : Str) :
    firstPassPartsChecked p tags baseURL = some (firstPassParts p tags baseURL) := by
  simp only [firstPassPartsChecked, firstPassParts, bodyStepChecked_eq,
    Option.bind_eq_bind, Option.some_bind]
  rfl

theorem twitterSecondCutChecked_eq (title content url hashtags : Str) (urlLength : Int) :
    twitterSecondCutChecked title content url hashtags urlLength =
      some (twitterSecondCut title content url hashtags urlLength) := by
  simp only [twitterSecondCutChecked, twitterSecondCut, calculateTwitterLengthChecked_eq,
    Option.bind_eq_bind, Option.some_bind]
  split
  · next h280 =>
    split
    · next hcontent =>
      rw [goTake_eq content _ (by omega) (by omega)]
      simp [Option.bind_eq_bind, Option.some_bind]
    · next hcontent =>
      split
      · next hmax =>
        rw [goTake_eq _ _ (by omega) (by omega)]
        simp [Option.bind_eq_bind, Option.some_bind]
      · rfl
  · rfl

theorem twitterFallbackChecked_eq (p : BlogPost) (tags : List BlogTag) (baseURL : Str) :
    twitterFallbackChecked p tags baseURL = some (twitterFallback p tags baseURL) := by
  simp only [twitterFallbackChecked, twitterFallback]
  rw [fallbackTruncateChecked_eq _ _ (by split <;> omega)]
  exact twitterSecondCutChecked_eq _ _ _ _ _

/-- C10: the microblog composer and its effective-length helper are total:
the checked embedding, in which every Go slice and suffix operation is
bounds-checked and any out-of-range index yields none (a panic), always
returns some string, namely the output of the plain embedding. -/
theorem c10_composer_never_panics (p : BlogPost) (tags : List BlogTag) (baseURL : Str) :
    buildTwitterPostTextChecked p tags baseURL =
      some (buildTwitterPostText p tags baseURL) := by
  simp only [buildTwitterPostTextChecked, buildTwitterPostText]
  rw [firstPassPartsChecked_eq]
  simp only [Option.bind_eq_bind, Option.some_bind]
  rw [calculateTwitterLengthChecked_eq]
  simp only [Option.bind_eq_bind, Option.some_bind]
  split
  · exact twitterFallbackChecked_eq p tags baseURL
  · rfl
